import Mathlib

/-!
Verification development for the engagement backend (src/server.js).

The file shallowly embeds the temporal scorer, the session registry, the
broadcast router and the analytics aggregator of the server, and proves or
refutes the specified properties about them.  Timestamps are naturals
(milliseconds), confidences and the fixed emotion weight table are exact
rationals, and the exponentially decayed score accumulation lives in the
real numbers (the decay factor is raised to a fractional exponent).
-/

namespace Engage

/-- Sliding history window in milliseconds (HISTORY_WINDOW_MS in server.js). -/
def HISTORY_WINDOW_MS : ℕ := 1500

/-- Minimum number of frames before a decision (MIN_FRAMES_FOR_DECISION). -/
def MIN_FRAMES_FOR_DECISION : ℕ := 2

/-- Confidence threshold for the filter (CONFIDENCE_THRESHOLD = 0.35). -/
def CONFIDENCE_THRESHOLD : ℚ := 35/100

/-- One emotion sample in a student history: `{ emotion, confidence, timestamp }`. -/
structure Frame where
  emotion : String
  confidence : ℚ
  timestamp : ℕ
deriving DecidableEq

/-- The four engagement states, in the insertion order of the `scores`
object of `calculateEngagementFromHistory`: engaged, bored, confused,
notPaying. -/
inductive EngKey where
  | engaged
  | bored
  | confused
  | notPaying
deriving DecidableEq

/-- Position of a state in the fixed enumeration order. -/
def keyIdx : EngKey → ℕ
  | .engaged => 0
  | .bored => 1
  | .confused => 2
  | .notPaying => 3

/-- A weight vector over the four engagement states (one row of the
`emotionWeights` table). -/
structure WeightVec where
  engaged : ℚ
  bored : ℚ
  confused : ℚ
  notPaying : ℚ
deriving DecidableEq

/-- Field lookup on a weight vector. -/
def WeightVec.get : WeightVec → EngKey → ℚ
  | v, .engaged => v.engaged
  | v, .bored => v.bored
  | v, .confused => v.confused
  | v, .notPaying => v.notPaying

/-- The `emotionWeights` object: a partial map from emotion label to weight
vector, with exactly the seven keys of the source table. -/
def emotionWeightsTable (k : String) : Option WeightVec :=
  if k = "happy" then some ⟨95/100, 0, 0, 5/100⟩
  else if k = "neutral" then some ⟨60/100, 15/100, 5/100, 20/100⟩
  else if k = "surprised" then some ⟨85/100, 0, 10/100, 5/100⟩
  else if k = "sad" then some ⟨10/100, 70/100, 10/100, 10/100⟩
  else if k = "angry" then some ⟨15/100, 25/100, 50/100, 10/100⟩
  else if k = "disgusted" then some ⟨5/100, 75/100, 5/100, 15/100⟩
  else if k = "fearful" then some ⟨20/100, 5/100, 60/100, 15/100⟩
  else none

/-- The neutral fallback row (`emotionWeights.neutral`, which coincides with
the inline literal fallback of the source). -/
def neutralWeights : WeightVec := ⟨60/100, 15/100, 5/100, 20/100⟩

/-- `emotionWeights[emotionKey] || emotionWeights.neutral || { ... }`:
total lookup with neutral fallback for unknown labels. -/
def weightsFor (k : String) : WeightVec :=
  (emotionWeightsTable k).getD neutralWeights

/-- Lower-casing of a string, character by character
(`String.toLowerCase` of JS on the labels this system sees). -/
def jsToLower (s : String) : String :=
  String.mk (s.data.map Char.toLower)

/-- Removal of leading and trailing whitespace (`String.trim` of JS). -/
def jsTrim (s : String) : String :=
  String.mk (((s.data.dropWhile Char.isWhitespace).reverse.dropWhile
    Char.isWhitespace).reverse)

/-- `(frame.emotion || 'neutral').toLowerCase().trim()`; the empty string
models a falsy emotion value. -/
def emotionKeyOf (f : Frame) : String :=
  jsTrim (jsToLower (if f.emotion = "" then "neutral" else f.emotion))

/-- `frame.confidence || 0.5`: a zero (falsy) confidence is replaced by 0.5. -/
def effConfidence (f : Frame) : ℚ :=
  if f.confidence = 0 then 1/2 else f.confidence

/-- `Math.pow(DECAY_FACTOR, frameAge / 500)` with DECAY_FACTOR = 0.85:
exponential time decay of a frame of the given age in milliseconds. -/
noncomputable def timeDecay (age : ℕ) : ℝ :=
  (85/100 : ℝ) ^ ((age : ℝ) / 500)

/-- `const frameWeight = (frame.confidence || 0.5) * timeDecay`. -/
noncomputable def frameWeight (now : ℕ) (f : Frame) : ℝ :=
  (effConfidence f : ℝ) * timeDecay (now - f.timestamp)

/-- The `recentFrames` filter: samples inside the time window and above the
confidence threshold.  (Natural subtraction makes a frame stamped in the
future trivially window-fresh, exactly like the signed subtraction of the
source.) -/
def recentFrames (history : List Frame) (now : ℕ) : List Frame :=
  history.filter fun f =>
    decide (now - f.timestamp ≤ HISTORY_WINDOW_MS) &&
    decide (CONFIDENCE_THRESHOLD ≤ f.confidence)

/-- Insert a frame into a list sorted by timestamp, before any strictly
later frame and after all earlier-or-equal ones. -/
def insertByTs (f : Frame) : List Frame → List Frame
  | [] => [f]
  | g :: l => if f.timestamp ≤ g.timestamp then f :: g :: l else g :: insertByTs f l

/-- Stable sort by ascending timestamp, modelling
`[...recentFrames].sort((a, b) => a.timestamp - b.timestamp)` (JS array sort
is stable, and a stable sorted permutation is unique). -/
def sortByTs : List Frame → List Frame
  | [] => []
  | f :: l => insertByTs f (sortByTs l)

/-- Contribution of one sample to one accumulated state score:
`weights[k] * frameWeight` for that frame. -/
noncomputable def stateContribution (f : Frame) (now : ℕ) (k : EngKey) : ℝ :=
  ((weightsFor (emotionKeyOf f)).get k : ℝ) * frameWeight now f

/-- Accumulated (unnormalised) weighted score of one engagement state over a
frame list: `scores[k] += weights[k] * frameWeight` for every frame. -/
noncomputable def accScore (frames : List Frame) (now : ℕ) (k : EngKey) : ℝ :=
  (frames.map fun f => stateContribution f now k).sum

/-- `totalWeight += frameWeight` over a frame list. -/
noncomputable def totalWeight (frames : List Frame) (now : ℕ) : ℝ :=
  (frames.map (frameWeight now)).sum

/-- `totalConfidence += frame.confidence || 0.5` over a frame list. -/
def totalConfidence (frames : List Frame) : ℚ :=
  (frames.map effConfidence).sum

/-- The `scores` object returned by the engagement calculation. -/
structure Scores where
  engaged : ℝ
  bored : ℝ
  confused : ℝ
  notPaying : ℝ

/-- Field lookup on a scores object. -/
noncomputable def Scores.get : Scores → EngKey → ℝ
  | s, .engaged => s.engaged
  | s, .bored => s.bored
  | s, .confused => s.confused
  | s, .notPaying => s.notPaying

/-- Sum of the four state scores. -/
noncomputable def scoreSum (s : Scores) : ℝ :=
  s.engaged + s.bored + s.confused + s.notPaying

/-- `Math.max(scores.engaged, scores.bored, scores.confused, scores.notPaying)`. -/
noncomputable def maxOfScores (s : Scores) : ℝ :=
  max (max s.engaged s.bored) (max s.confused s.notPaying)

/-- `Object.keys(scores).reduce((a, b) => scores[a] > scores[b] ? a : b)`:
fold over the key order starting from `engaged`, keeping the accumulator
only when its score is strictly greater (so a tie moves to the later key). -/
noncomputable def chooseState (s : Scores) : EngKey :=
  [EngKey.bored, EngKey.confused, EngKey.notPaying].foldl
    (fun a b => if s.get b < s.get a then a else b) EngKey.engaged

/-- The `engagementMap` from internal keys to display names. -/
def displayName : EngKey → String
  | .engaged => "Engaged"
  | .bored => "Bored"
  | .confused => "Confused"
  | .notPaying => "Not Paying Attention"

/-- The value returned by `calculateEngagementFromHistory`. -/
structure Decision where
  engagement : String
  confidence : ℚ
  dataPoints : ℕ
  scores : Scores

/-- The accumulated scores of the sorted recent frames, normalised by the
total weight when it is positive (`if (totalWeight > 0) scores[key] /= totalWeight`). -/
noncomputable def normalizedScores (sorted : List Frame) (now : ℕ) : Scores :=
  if 0 < totalWeight sorted now then
    ⟨accScore sorted now .engaged / totalWeight sorted now,
     accScore sorted now .bored / totalWeight sorted now,
     accScore sorted now .confused / totalWeight sorted now,
     accScore sorted now .notPaying / totalWeight sorted now⟩
  else
    ⟨accScore sorted now .engaged, accScore sorted now .bored,
     accScore sorted now .confused, accScore sorted now .notPaying⟩

/-- The dominant-state selection: the reduce over the key order when the
maximum reaches MIN_DOMINANCE = 0.3, the notPaying default otherwise,
mapped through the display names. -/
noncomputable def decisionLabel (s : Scores) : String :=
  if (3/10 : ℝ) ≤ maxOfScores s then displayName (chooseState s)
  else "Not Paying Attention"

/-- `totalConfidence / sortedFrames.length`: the unweighted mean confidence
of the retained frames. -/
def avgConfidence (sorted : List Frame) : ℚ :=
  totalConfidence sorted / sorted.length

/-- `calculateEngagementFromHistory`, as a pure function of the stored
history of one student and the current time.  Mirrors the source branch by
branch: the minimum-frame default, the no-high-confidence default, and the
exponentially weighted scoring with normalisation, dominance threshold and
key-order reduce (the source's local bindings appear here as the helper
definitions above). -/
noncomputable def calculateEngagementFromHistory (history : List Frame) (now : ℕ) : Decision :=
  if history.length < MIN_FRAMES_FOR_DECISION then
    ⟨"Not Paying Attention", 1/2, history.length, ⟨0, 0, 0, 0⟩⟩
  else if (recentFrames history now).length = 0 then
    ⟨"Not Paying Attention", 2/5, 0, ⟨0, 0, 0, 0⟩⟩
  else
    ⟨decisionLabel (normalizedScores (sortByTs (recentFrames history now)) now),
     avgConfidence (sortByTs (recentFrames history now)),
     (recentFrames history now).length,
     normalizedScores (sortByTs (recentFrames history now)) now⟩

/-- `addEmotionToHistory`: push the new sample (stamped now) and keep only
the samples inside the time window; returns the stored (pruned) history. -/
def addEmotionToHistory (history : List Frame) (emotion : String) (confidence : ℚ)
    (now : ℕ) : List Frame :=
  (history ++ [(⟨emotion, confidence, now⟩ : Frame)]).filter fun f =>
    decide (now - f.timestamp ≤ HISTORY_WINDOW_MS)

/-- The scorer's observe step as run by the frame handler: append the new
sample to the history, prune, then derive the decision from the stored
history. -/
noncomputable def observe (history : List Frame) (emotion : String) (confidence : ℚ)
    (now : ℕ) : Decision :=
  calculateEngagementFromHistory (addEmotionToHistory history emotion confidence now) now

/-! ## Session registry, broadcast router and server state -/

/-- One entry of `activeSessions.students`.  The object created on join has
no `engagement`/`dataPoints` keys and null emotion/confidence; `none`
models both a null value and an absent key. -/
structure StudentSession where
  id : String
  name : String
  socketId : ℕ
  channelName : String
  emotion : Option String
  engagement : Option String
  confidence : Option ℚ
  timestamp : ℕ
  dataPoints : Option ℕ
deriving DecidableEq

/-- One entry of `activeSessions.teachers`. -/
structure TeacherSession where
  id : String
  name : String
  socketId : ℕ
  channelName : String
deriving DecidableEq

/-- One element of a channel's analytics timeline (the object pushed by the
frame handler). -/
structure EngagementRecord where
  timestamp : ℕ
  studentId : String
  studentName : String
  emotion : String
  engagement : String
  confidence : ℚ
  dataPoints : ℕ
deriving DecidableEq

/-- One element of a channel's `topicTracking` array. -/
structure Topic where
  topicName : String
  startTime : ℕ
  endTime : Option ℕ
deriving DecidableEq

/-- `activeSessions.students.get(studentId)`. -/
def sMapGet (l : List StudentSession) (sid : String) : Option StudentSession :=
  l.find? fun s => s.id == sid

/-- `activeSessions.students.set(s.id, s)`: replace the existing value in
place when the key is present (JS map insertion order is preserved),
otherwise append. -/
def sMapSet (l : List StudentSession) (s : StudentSession) : List StudentSession :=
  if l.any fun t => t.id == s.id then
    l.map fun t => if t.id == s.id then s else t
  else l ++ [s]

/-- `activeSessions.teachers.set(t.id, t)`. -/
def tMapSet (l : List TeacherSession) (t : TeacherSession) : List TeacherSession :=
  if l.any fun u => u.id == t.id then
    l.map fun u => if u.id == t.id then t else u
  else l ++ [t]

/-- Lookup in a string-keyed JS map modelled as an insertion-ordered
association list. -/
def assocGet {α : Type} (m : List (String × α)) (k : String) : Option α :=
  (m.find? fun p => p.1 == k).map fun p => p.2

/-- Update of a string-keyed JS map: replace in place or append. -/
def assocSet {α : Type} (m : List (String × α)) (k : String) (v : α) :
    List (String × α) :=
  if m.any fun p => p.1 == k then
    m.map fun p => if p.1 == k then (k, v) else p
  else m ++ [(k, v)]

/-- The process-wide mutable state of the server: both session maps, the
per-student emotion histories, the per-channel analytics timelines and the
per-channel topic lists. -/
structure ServerState where
  students : List StudentSession
  teachers : List TeacherSession
  emotionHistory : List (String × List Frame)
  analyticsData : List (String × List EngagementRecord)
  topicTracking : List (String × List Topic)
deriving DecidableEq

/-- The socket events emitted by the handlers. -/
inductive Event where
  | studentJoined (studentId studentName : String) (timestamp : ℕ)
  | teacherJoined (teacherId teacherName : String) (timestamp : ℕ)
  | studentsList (students : List StudentSession)
  | studentLeft (studentId : String) (timestamp : ℕ)
  | emotionResult (emotion engagement : String) (confidence : ℚ)
      (dataPoints : ℕ) (timestamp : ℕ)
  | emotionUpdate (studentId studentName emotion engagement : String)
      (confidence : ℚ) (dataPoints : ℕ) (timestamp : ℕ)
  | emotionError (message : String)
deriving DecidableEq

/-- Destination of an emission: a single socket (`socket.emit` or
`io.to(socketId)`), every socket in a channel room, or every socket in a
channel's teachers room. -/
inductive EmitTarget where
  | socket (socketId : ℕ)
  | channelRoom (channelName : String)
  | teachersRoom (channelName : String)
deriving DecidableEq

/-- Whether an emission target reaches the given socket, which is a member
of the given rooms. -/
def targetsSocket (sock : ℕ) (rooms : List String) : EmitTarget → Bool
  | .socket s => s == sock
  | .channelRoom ch => rooms.contains ("channel:" ++ ch)
  | .teachersRoom ch => rooms.contains ("teachers:" ++ ch)

/-- The ordered sequence of events a socket in the given rooms receives
from an emission list (delivery is FIFO per connection). -/
def deliveredTo (sock : ℕ) (rooms : List String)
    (ems : List (EmitTarget × Event)) : List Event :=
  (ems.filter fun e => targetsSocket sock rooms e.1).map fun e => e.2

/-- `x || fallback` for an optional display name: an absent or empty name
falls back to the generated one. -/
def displayNameOr (fallback : String) : Option String → String
  | none => fallback
  | some n => if n = "" then fallback else n

/-- The `student:join` handler: upsert the registry entry (emotion and
confidence null, no engagement), then notify the channel room and replay
the other students and the channel's teachers to the new socket. -/
def studentJoin (st : ServerState) (studentId channelName : String)
    (studentName : Option String) (sock now : ℕ) :
    ServerState × List (EmitTarget × Event) :=
  let dispName := displayNameOr ("Student " ++ studentId) studentName
  let entry : StudentSession :=
    ⟨studentId, dispName, sock, channelName, none, none, none, now, none⟩
  let students' := sMapSet st.students entry
  let existingStudents := students'.filter fun s =>
    s.channelName == channelName && s.id != studentId
  let existingTeachers := st.teachers.filter fun t => t.channelName == channelName
  (⟨students', st.teachers, st.emotionHistory, st.analyticsData, st.topicTracking⟩,
   [(EmitTarget.channelRoom channelName, Event.studentJoined studentId dispName now)]
   ++ (existingStudents.map fun s =>
        (EmitTarget.socket sock, Event.studentJoined s.id s.name now))
   ++ (existingTeachers.map fun t =>
        (EmitTarget.socket sock, Event.teacherJoined t.id t.name now)))

/-- The `teacher:join` handler: upsert the teacher entry, notify the
channel room, send the current students list to the new socket as one
batch event, and echo the join to each student socket. -/
def teacherJoin (st : ServerState) (teacherId channelName : String)
    (teacherName : Option String) (sock now : ℕ) :
    ServerState × List (EmitTarget × Event) :=
  let dispName := displayNameOr ("Teacher " ++ teacherId) teacherName
  let entry : TeacherSession := ⟨teacherId, dispName, sock, channelName⟩
  let teachers' := tMapSet st.teachers entry
  let studentsInChannel := st.students.filter fun s => s.channelName == channelName
  (⟨st.students, teachers', st.emotionHistory, st.analyticsData, st.topicTracking⟩,
   [(EmitTarget.channelRoom channelName, Event.teacherJoined teacherId dispName now),
    (EmitTarget.socket sock, Event.studentsList studentsInChannel)]
   ++ (studentsInChannel.map fun s =>
        (EmitTarget.socket s.socketId, Event.teacherJoined teacherId dispName now)))

/-- The reply of the external inference service (`predict`): an emotion
label and a confidence, either of which may be missing or falsy. -/
structure MLResponse where
  emotion : Option String
  confidence : Option ℚ
deriving DecidableEq

/-- `(emotion || 'neutral').toLowerCase().trim()` on the service reply. -/
def mlEmotionKey (resp : MLResponse) : String :=
  jsTrim (jsToLower (match resp.emotion with
    | none => "neutral"
    | some e => if e = "" then "neutral" else e))

/-- `confidence || 0.5` on the service reply. -/
def mlConfidence (resp : MLResponse) : ℚ :=
  match resp.confidence with
  | none => 1/2
  | some c => if c = 0 then 1/2 else c

/-- The `frame:send` handler.  The external inference call is the first
effectful step; everything before it only reads state.  Its outcome is
passed in as an `Except`: on failure the whole pipeline is skipped and a
single error event goes back to the sender; on success the sample is added
to the history, the decision computed, the registry entry updated when the
student is still present, the analytics record appended, and the result and
update events emitted. -/
noncomputable def frameSend (st : ServerState) (studentId channelName : String)
    (sock : ℕ) (mlResult : Except String MLResponse) (now : ℕ) :
    ServerState × List (EmitTarget × Event) :=
  match mlResult with
  | .error msg => (st, [(EmitTarget.socket sock, Event.emotionError msg)])
  | .ok resp =>
    let studentName := match sMapGet st.students studentId with
      | some s => s.name
      | none => "Student " ++ studentId
    let normalizedEmotion := mlEmotionKey resp
    let conf := mlConfidence resp
    let hist' := addEmotionToHistory ((assocGet st.emotionHistory studentId).getD [])
      normalizedEmotion conf now
    let dataPoints := hist'.length
    let result := calculateEngagementFromHistory hist' now
    let students' := match sMapGet st.students studentId with
      | some s => sMapSet st.students
          ⟨s.id, s.name, s.socketId, s.channelName, some normalizedEmotion,
           some result.engagement, some result.confidence, now, some dataPoints⟩
      | none => st.students
    let newRecord : EngagementRecord :=
      ⟨now, studentId, studentName, normalizedEmotion, result.engagement,
       result.confidence, dataPoints⟩
    let analytics' := assocSet st.analyticsData channelName
      ((assocGet st.analyticsData channelName).getD [] ++ [newRecord])
    (⟨students', st.teachers, assocSet st.emotionHistory studentId hist',
      analytics', st.topicTracking⟩,
     [(EmitTarget.socket sock,
       Event.emotionResult normalizedEmotion result.engagement result.confidence
         dataPoints now),
      (EmitTarget.teachersRoom channelName,
       Event.emotionUpdate studentId studentName normalizedEmotion
         result.engagement result.confidence dataPoints now)])

/-- The history stored for the student by a successful frame:send. -/
def observedHistory (st : ServerState) (sid : String) (resp : MLResponse)
    (now : ℕ) : List Frame :=
  addEmotionToHistory ((assocGet st.emotionHistory sid).getD [])
    (mlEmotionKey resp) (mlConfidence resp) now

/-- The decision computed by a successful frame:send. -/
noncomputable def observedDecision (st : ServerState) (sid : String)
    (resp : MLResponse) (now : ℕ) : Decision :=
  calculateEngagementFromHistory (observedHistory st sid resp now) now

/-- Recogniser for individual student-joined events. -/
def isStudentJoined : Event → Bool
  | .studentJoined .. => true
  | _ => false

/-- Recogniser for individual teacher-joined events. -/
def isTeacherJoined : Event → Bool
  | .teacherJoined .. => true
  | _ => false

/-- Recogniser for engagement-update events. -/
def isEmotionUpdate : Event → Bool
  | .emotionUpdate .. => true
  | _ => false

/-! ## Analytics aggregator -/

/-- `POST /api/topics/:channelName`: append a topic with start = now and no
end time. -/
def startTopicHandler (topics : List Topic) (name : String) (now : ℕ) : List Topic :=
  topics ++ [⟨name, now, none⟩]

/-- `PUT /api/topics/:channelName/end`: look at the LAST topic of the
channel's array only; if it has no end time, stamp it with now, otherwise
do nothing. -/
def endTopicHandler (topics : List Topic) (now : ℕ) : List Topic :=
  match topics.getLast? with
  | none => topics
  | some t =>
      if t.endTime = none then
        topics.dropLast ++ [⟨t.topicName, t.startTime, some now⟩]
      else topics

/-- Deduplication keeping first occurrences, with an accumulator of the
keys already seen: models iteration order of a JS `Set`. -/
def dedupAux (seen : List String) : List String → List String
  | [] => []
  | x :: xs => if x ∈ seen then dedupAux seen xs else x :: dedupAux (x :: seen) xs

/-- `[...new Set(analytics.map(a => a.studentId))]`. -/
def uniqueStudents (analytics : List EngagementRecord) : List String :=
  dedupAux [] (analytics.map fun r => r.studentId)

/-- `Math.round`: round half toward positive infinity. -/
def jsRound (q : ℚ) : ℤ := ⌊q + 1/2⌋

/-- `Math.round(x * 10) / 10`: rounding to one decimal place. -/
def round1 (q : ℚ) : ℚ := (jsRound (q * 10) : ℚ) / 10

/-- The first stored display name of a student in the timeline, with the
generated fallback (`studentNames[id] || ...`). -/
def nameOf (analytics : List EngagementRecord) (sid : String) : String :=
  match analytics.find? fun r => r.studentId == sid with
  | some r => r.studentName
  | none => "Student " ++ sid

/-- Whether a record falls into a topic's range:
`a.timestamp >= topic.startTime && (!topic.endTime || a.timestamp <= topic.endTime)`. -/
def inTopicRange (t : Topic) (r : EngagementRecord) : Bool :=
  decide (t.startTime ≤ r.timestamp) &&
    (match t.endTime with
     | none => true
     | some e => decide (r.timestamp ≤ e))

/-- Counts of the four engagement labels in a record list. -/
structure EngCounts where
  engaged : ℕ
  bored : ℕ
  confused : ℕ
  notPaying : ℕ
deriving DecidableEq

/-- Count the records carrying each of the four display labels (records
with any other label are not counted anywhere). -/
def countsFor (rs : List EngagementRecord) : EngCounts :=
  ⟨(rs.filter fun r => r.engagement == "Engaged").length,
   (rs.filter fun r => r.engagement == "Bored").length,
   (rs.filter fun r => r.engagement == "Confused").length,
   (rs.filter fun r => r.engagement == "Not Paying Attention").length⟩

/-- One per-student entry of a topic's statistics in the report. -/
structure StudentStat where
  studentId : String
  studentName : String
  totalDataPoints : ℕ
  counts : EngCounts
  engagementPercentage : ℚ
  boredPercentage : ℚ
  confusedPercentage : ℚ
  notPayingAttentionPercentage : ℚ
deriving DecidableEq

/-- The per-student statistics over a record pool (the topic's filtered
records); the name lookup uses the whole timeline, as in the source. -/
def mkStudentStat (analytics pool : List EngagementRecord) (sid : String) :
    StudentStat :=
  let studentData := pool.filter fun r => r.studentId == sid
  let c := countsFor studentData
  let total := studentData.length
  let engagementPercentage : ℚ :=
    if 0 < total then (c.engaged : ℚ) / total * 100 else 0
  ⟨sid, nameOf analytics sid, total, c,
   round1 engagementPercentage,
   if 0 < total then (jsRound ((c.bored : ℚ) / total * 1000) : ℚ) / 10 else 0,
   if 0 < total then (jsRound ((c.confused : ℚ) / total * 1000) : ℚ) / 10 else 0,
   if 0 < total then (jsRound ((c.notPaying : ℚ) / total * 1000) : ℚ) / 10 else 0⟩

/-- One topic's section of the report. -/
structure TopicStat where
  topicName : String
  startTime : ℕ
  endTime : Option ℕ
  duration : Option ℕ
  counts : EngCounts
  totalDataPoints : ℕ
  studentStats : List StudentStat
  classAverageEngagement : ℚ
deriving DecidableEq

/-- The per-topic statistics: filter the timeline to the topic's range,
then build one entry per unique student of the WHOLE timeline, and average
the per-student engaged percentages over all those entries. -/
def mkTopicStat (analytics : List EngagementRecord) (topic : Topic) : TopicStat :=
  let topicAnalytics := analytics.filter (inTopicRange topic)
  let stats := (uniqueStudents analytics).map (mkStudentStat analytics topicAnalytics)
  let classAvg : ℚ :=
    if 0 < stats.length then
      (stats.map fun s => s.engagementPercentage).sum / stats.length
    else 0
  ⟨topic.topicName, topic.startTime, topic.endTime,
   topic.endTime.map (fun e => e - topic.startTime),
   countsFor topicAnalytics, topicAnalytics.length, stats, round1 classAvg⟩

/-- One whole-channel per-student entry of the report. -/
structure OverallStat where
  studentId : String
  studentName : String
  totalDataPoints : ℕ
  engagementPercentage : ℚ
deriving DecidableEq

/-- The whole-channel statistics of one student. -/
def mkOverallStat (analytics : List EngagementRecord) (sid : String) : OverallStat :=
  let studentData := analytics.filter fun r => r.studentId == sid
  let c := countsFor studentData
  let total := studentData.length
  let engagementPercentage : ℚ :=
    if 0 < total then (c.engaged : ℚ) / total * 100 else 0
  ⟨sid, nameOf analytics sid, total, round1 engagementPercentage⟩

/-- `overallStats` of the report: one entry per unique student of the
channel's timeline. -/
def overallStatsFor (analytics : List EngagementRecord) : List OverallStat :=
  (uniqueStudents analytics).map (mkOverallStat analytics)

/-- The body of `GET /api/report/:channelName`. -/
structure ChannelReport where
  topics : List TopicStat
  overallStats : List OverallStat
  overallClassAverage : ℚ
deriving DecidableEq

/-- Build the full report from a channel's timeline and topic list. -/
def reportFor (analytics : List EngagementRecord) (topics : List Topic) :
    ChannelReport :=
  let overall := overallStatsFor analytics
  let avg : ℚ :=
    if 0 < overall.length then
      (overall.map fun s => s.engagementPercentage).sum / overall.length
    else 0
  ⟨topics.map (mkTopicStat analytics), overall, round1 avg⟩

/-! ## Concrete example data used by counterexamples and witnesses -/

/-- A channel whose first topic is still open while the later one is
already closed. -/
def exTopics : List Topic := [⟨"A", 1, none⟩, ⟨"B", 2, some 5⟩]

/-- Two simultaneous high-confidence samples whose accumulated engaged and
bored scores tie exactly (0.95·0.56 + 0.05·0.76 = 0.75·0.76 = 0.57). -/
def exTieHistory : List Frame :=
  [⟨"happy", 56/100, 1000⟩, ⟨"disgusted", 76/100, 1000⟩]

/-- A single fresh sample that passes both the window and the confidence
filter. -/
def exSingleHistory : List Frame := [⟨"happy", 1/2, 1000⟩]

/-- A registry with three students of channel "math" on sockets 1, 2, 3. -/
def exThreeStudents : ServerState :=
  ⟨[⟨"s1", "Ana", 1, "math", none, none, none, 10, none⟩,
    ⟨"s2", "Ben", 2, "math", none, none, none, 11, none⟩,
    ⟨"s3", "Cal", 3, "math", none, none, none, 12, none⟩],
   [], [], [], []⟩

/-- A registry whose single student has a recorded emotion, engagement and
confidence. -/
def exRejoinState : ServerState :=
  ⟨[⟨"s1", "Ana", 1, "math", some "happy", some "Engaged", some (9/10), 10, some 3⟩],
   [], [], [], []⟩

/-- A two-student timeline: the record of s1 lies before the topic range,
the record of s2 inside it. -/
def exReportAnalytics : List EngagementRecord :=
  [⟨10, "s1", "Ana", "happy", "Engaged", 1/2, 1⟩,
   ⟨150, "s2", "Ben", "happy", "Engaged", 1/2, 1⟩]

/-- A closed topic covering only the second record of `exReportAnalytics`. -/
def exReportTopic : Topic := ⟨"T", 100, some 200⟩

end Engage

/-! # Theorems -/

namespace Engage

/- Batteries marks the arithmetic of ℚ irreducible for elaboration
performance; concrete evaluation of the embedded functions on rational
literals needs it to unfold again. -/
attribute [local semireducible] Rat.mul Rat.inv Rat.add Rat.sub

/-! ## Generic helper lemmas -/

theorem timeDecay_pos (a : ℕ) : 0 < timeDecay a :=
  Real.rpow_pos_of_pos (by norm_num) _

theorem timeDecay_antitone {a b : ℕ} (h : a ≤ b) : timeDecay b ≤ timeDecay a := by
  apply Real.rpow_le_rpow_of_exponent_ge (by norm_num) (by norm_num)
  gcongr

theorem weightsFor_get_nonneg (k : String) (j : EngKey) :
    0 ≤ (weightsFor k).get j := by
  unfold weightsFor emotionWeightsTable neutralWeights
  split_ifs <;> cases j <;> norm_num [WeightVec.get, Option.getD]

theorem weightsFor_sum_one (k : String) :
    (weightsFor k).engaged + (weightsFor k).bored + (weightsFor k).confused +
      (weightsFor k).notPaying = 1 := by
  unfold weightsFor emotionWeightsTable neutralWeights
  split_ifs <;> norm_num [Option.getD]

theorem effConfidence_nonneg (f : Frame) (hc : 0 ≤ f.confidence) :
    0 ≤ effConfidence f := by
  unfold effConfidence
  split
  · norm_num
  · exact hc

theorem effConfidence_pos_of_threshold (f : Frame)
    (hc : CONFIDENCE_THRESHOLD ≤ f.confidence) : 0 < effConfidence f := by
  unfold effConfidence
  have h35 : (0:ℚ) < 35/100 := by norm_num
  split
  · norm_num
  · calc (0:ℚ) < 35/100 := h35
      _ ≤ f.confidence := hc

theorem frameWeight_pos (now : ℕ) (f : Frame)
    (hc : CONFIDENCE_THRESHOLD ≤ f.confidence) : 0 < frameWeight now f := by
  unfold frameWeight
  have h1 : (0:ℝ) < (effConfidence f : ℝ) := by
    exact_mod_cast effConfidence_pos_of_threshold f hc
  exact mul_pos h1 (timeDecay_pos _)

/-! ## C7: failure of the inference call mutates nothing -/

/-- Claim C7: when the external inference call fails during frame:send, the
handler leaves the whole server state unchanged (history, registry and
analytics included) and emits exactly one error event, addressed to the
sending socket only. -/
theorem frameSend_error_pure (st : ServerState) (sid ch : String) (sock : ℕ)
    (msg : String) (now : ℕ) :
    (frameSend st sid ch sock (Except.error msg) now).1 = st ∧
    (frameSend st sid ch sock (Except.error msg) now).2 =
      [(EmitTarget.socket sock, Event.emotionError msg)] :=
  ⟨rfl, rfl⟩

/-! ## C8: endTopic only ever looks at the last topic -/

/-- Counterexample to claim C8: in `exTopics` the first topic is the (only)
open topic and the most recently started open topic, all later topics being
closed, yet `endTopicHandler` changes nothing — the claimed closing of the
most recently started still-open topic does not happen. -/
theorem endTopic_skips_older_open_topic :
    (exTopics.map fun t => t.endTime) = [none, some 5] ∧
    endTopicHandler exTopics 10 = exTopics := by
  constructor
  · decide
  · decide

/-- Claim C8 (amended): endTopic inspects only the LAST topic of the
channel's array (the most recently started topic, open or not): it stamps
it with now when it is still open, is a no-op when it is already closed or
when the channel has no topics, and never modifies any earlier topic. -/
theorem endTopic_closes_last_only (ts : List Topic) (now : ℕ) :
    (endTopicHandler ts now).dropLast = ts.dropLast ∧
    (∀ t, ts.getLast? = some t → t.endTime = none →
      endTopicHandler ts now = ts.dropLast ++ [⟨t.topicName, t.startTime, some now⟩]) ∧
    (∀ t, ts.getLast? = some t → t.endTime ≠ none → endTopicHandler ts now = ts) ∧
    (ts = [] → endTopicHandler ts now = ts) := by
  refine ⟨?_, ?_, ?_, ?_⟩
  · unfold endTopicHandler
    split
    · rfl
    · split
      · exact List.dropLast_concat ..
      · rfl
  · intro t ht hopen
    unfold endTopicHandler
    rw [ht]
    simp [hopen]
  · intro t ht hclosed
    unfold endTopicHandler
    rw [ht]
    simp [hclosed]
  · intro h
    subst h
    rfl

/-- The amended C8 applied at concrete inputs: a single open topic gets
closed, a single closed topic stays untouched. -/
theorem endTopic_closes_last_only_wit :
    endTopicHandler [(⟨"A", 1, none⟩ : Topic)] 10 = [⟨"A", 1, some 10⟩] ∧
    endTopicHandler [(⟨"B", 2, some 5⟩ : Topic)] 10 = [⟨"B", 2, some 5⟩] :=
  ⟨(endTopic_closes_last_only [⟨"A", 1, none⟩] 10).2.1 ⟨"A", 1, none⟩ rfl rfl,
   (endTopic_closes_last_only [⟨"B", 2, some 5⟩] 10).2.2.1 ⟨"B", 2, some 5⟩ rfl
     (by decide)⟩

/-! ## C9: time decay makes older contributions no larger -/

/-- Claim C9: for two samples identical except for their timestamp, the
older one (smaller timestamp, larger age) contributes at most as much as
the younger one to every accumulated state score: the per-sample factor
confidence times decay to the power age/500 is non-increasing in age. -/
theorem stateContribution_decay_monotone (e : String) (c : ℚ)
    (tOld tNew now : ℕ) (k : EngKey) (hc : 0 ≤ c) (ht : tOld ≤ tNew) :
    stateContribution ⟨e, c, tOld⟩ now k ≤ stateContribution ⟨e, c, tNew⟩ now k := by
  unfold stateContribution frameWeight
  have hw : (0:ℝ) ≤ ((weightsFor (emotionKeyOf ⟨e, c, tNew⟩)).get k : ℚ) := by
    exact_mod_cast weightsFor_get_nonneg _ _
  have heff : (0:ℝ) ≤ ((effConfidence ⟨e, c, tNew⟩ : ℚ) : ℝ) := by
    exact_mod_cast effConfidence_nonneg ⟨e, c, tNew⟩ hc
  have hdec : timeDecay (now - tOld) ≤ timeDecay (now - tNew) :=
    timeDecay_antitone (Nat.sub_le_sub_left ht now)
  have hkey : emotionKeyOf ⟨e, c, tOld⟩ = emotionKeyOf ⟨e, c, tNew⟩ := rfl
  have heffeq : effConfidence ⟨e, c, tOld⟩ = effConfidence ⟨e, c, tNew⟩ := rfl
  rw [hkey, heffeq]
  exact mul_le_mul_of_nonneg_left (mul_le_mul_of_nonneg_left hdec heff) hw

/-- Claim C9 applied at a concrete pair of samples (ages 1000 and 500). -/
theorem stateContribution_decay_monotone_wit :
    stateContribution ⟨"happy", 1/2, 0⟩ 1000 EngKey.engaged ≤
      stateContribution ⟨"happy", 1/2, 500⟩ 1000 EngKey.engaged :=
  stateContribution_decay_monotone ("happy") (1/2) 0 500 1000 EngKey.engaged
    (by decide) (by decide)

/-! ## C5: the two insufficiency defaults -/

/-- Claim C5: on a history whose pruned form has fewer than
MIN_FRAMES_FOR_DECISION samples, observe returns the not-enough-data
default (Not Paying Attention, confidence 0.5, zero scores, the pruned
length as dataPoints); on a pruned history of at least that many
window-fresh samples none of which reaches CONFIDENCE_THRESHOLD, observe
returns the distinct all-unreliable default (confidence 0.4, zero scores,
zero dataPoints) — so the two cases are distinguishable by the returned
confidence (0.5 versus 0.4). -/
theorem observe_insufficiency_defaults (h : List Frame) (e : String) (c : ℚ)
    (now : ℕ) :
    ((addEmotionToHistory h e c now).length < MIN_FRAMES_FOR_DECISION →
      observe h e c now =
        ⟨"Not Paying Attention", 1/2, (addEmotionToHistory h e c now).length,
         ⟨0, 0, 0, 0⟩⟩) ∧
    (MIN_FRAMES_FOR_DECISION ≤ (addEmotionToHistory h e c now).length →
      (∀ f ∈ addEmotionToHistory h e c now, f.confidence < CONFIDENCE_THRESHOLD) →
      observe h e c now = ⟨"Not Paying Attention", 2/5, 0, ⟨0, 0, 0, 0⟩⟩) := by
  constructor
  · intro hlen
    unfold observe calculateEngagementFromHistory
    rw [if_pos hlen]
  · intro hlen hconf
    unfold observe calculateEngagementFromHistory
    rw [if_neg (by omega)]
    have hrec : recentFrames (addEmotionToHistory h e c now) now = [] := by
      unfold recentFrames
      rw [List.filter_eq_nil_iff]
      intro f hf
      have := hconf f hf
      simp only [Bool.and_eq_true, decide_eq_true_eq, not_and]
      intro _
      exact not_le_of_lt this
    simp only [hrec]
    rfl

/-- The two branches of C5 applied at concrete inputs: a first-ever sample
hits the 0.5 default, two fresh low-confidence samples hit the 0.4
default. -/
theorem observe_insufficiency_defaults_wit :
    observe [] ("happy") (9/10) 0 = ⟨"Not Paying Attention", 1/2, 1, ⟨0, 0, 0, 0⟩⟩ ∧
    observe [⟨"happy", 1/10, 1000⟩] ("sad") (2/10) 1000 =
      ⟨"Not Paying Attention", 2/5, 0, ⟨0, 0, 0, 0⟩⟩ := by
  constructor
  · have h1 := (observe_insufficiency_defaults [] ("happy") (9/10) 0).1 (by decide)
    have h2 : (addEmotionToHistory [] ("happy") (9/10) 0).length = 1 := by decide
    rw [h2] at h1
    exact h1
  · exact (observe_insufficiency_defaults [⟨"happy", 1/10, 1000⟩] ("sad") (2/10)
      1000).2 (by decide) (by decide)

/-! ## Map-model helper lemmas -/

theorem find?_map_update {α : Type} (key : α → String) (upd : α) (k : String)
    (hupd : key upd = k) (l : List α) :
    ((l.map fun t => if key t == k then upd else t).find? fun t => key t == k) =
      if l.any (fun t => key t == k) then some upd else none := by
  induction l with
  | nil => rfl
  | cons t rest ih =>
    by_cases h : key t == k
    · simp only [List.map_cons, List.any_cons, h, if_pos, Bool.true_or]
      rw [List.find?_cons_of_pos]
      simp [hupd]
    · simp only [List.map_cons, List.any_cons, h, if_neg, Bool.false_or,
        Bool.false_eq_true, if_false]
      rw [List.find?_cons_of_neg _ (by simp [h])]
      exact ih

theorem find?_append_single {α : Type} (p : α → Bool) (l : List α) (a : α)
    (hl : l.find? p = none) (ha : p a = true) : (l ++ [a]).find? p = some a := by
  induction l with
  | nil => simp [List.find?_cons_of_pos, ha]
  | cons t rest ih =>
    rw [List.find?_eq_none] at hl
    simp only [List.cons_append]
    rw [List.find?_cons_of_neg _ (hl t (by simp))]
    exact ih (List.find?_eq_none.mpr fun x hx => hl x (by simp [hx]))

theorem sMapGet_sMapSet_self (l : List StudentSession) (s : StudentSession) :
    sMapGet (sMapSet l s) s.id = some s := by
  unfold sMapGet sMapSet
  split
  next h => rw [find?_map_update (fun t => t.id) s s.id rfl l, if_pos h]
  next h =>
    have h1 : (l.find? fun t => t.id == s.id) = none := by
      rw [List.find?_eq_none]
      intro t ht hc
      exact h (List.any_eq_true.mpr ⟨t, ht, hc⟩)
    exact find?_append_single _ l s h1 (by simp)

theorem sMapSet_length_of_present (l : List StudentSession) (s : StudentSession)
    (h : (l.any fun t => t.id == s.id) = true) :
    (sMapSet l s).length = l.length := by
  unfold sMapSet
  rw [if_pos h]
  exact List.length_map ..

theorem sMapSet_preserves_others (l : List StudentSession) (s t : StudentSession)
    (ht : t ∈ l) (hne : t.id ≠ s.id) : t ∈ sMapSet l s := by
  unfold sMapSet
  split
  · exact List.mem_map.mpr ⟨t, ht, by simp [hne]⟩
  · exact List.mem_append_left _ ht

theorem assocGet_assocSet_self {α : Type} (m : List (String × α)) (k : String)
    (v : α) : assocGet (assocSet m k v) k = some v := by
  unfold assocGet assocSet
  split
  next h =>
    rw [find?_map_update (fun p => p.1) (k, v) k rfl m, if_pos h]
    rfl
  next h =>
    have h1 : (m.find? fun p => p.1 == k) = none := by
      rw [List.find?_eq_none]
      intro p hp hc
      exact h (List.any_eq_true.mpr ⟨p, hp, hc⟩)
    rw [find?_append_single _ m (k, v) h1 (by simp)]
    rfl

/-! ## C4: a re-join replaces the registry entry wholesale -/

/-- Counterexample to claim C4: the student of `exRejoinState` has a
last-known emotion, engagement and confidence, yet after a second join
under a new connection handle the registry entry carries none of them —
the join handler overwrites the whole object instead of preserving the
engagement fields. -/
theorem studentJoin_resets_on_rejoin_cex :
    (sMapGet exRejoinState.students "s1").map (fun s => s.emotion) =
      some (some "happy") ∧
    (sMapGet exRejoinState.students "s1").map (fun s => s.engagement) =
      some (some "Engaged") ∧
    sMapGet (studentJoin exRejoinState "s1" "math" (some "Ana") 2 99).1.students
        "s1" =
      some ⟨"s1", "Ana", 2, "math", none, none, none, 99, none⟩ := by
  refine ⟨by decide, by decide, by decide⟩

/-- Claim C4 (amended): a second join for an identity already present in
the registry raises no error and replaces the entry in place — the new
connection handle, channel and display name are stored, the entry count and
all other entries are untouched, but the last-known emotion, engagement
state and confidence are reset to null/absent rather than preserved. -/
theorem studentJoin_replaces_entry (st : ServerState) (sid ch : String)
    (nm : Option String) (sock now : ℕ) (old : StudentSession)
    (hold : sMapGet st.students sid = some old) :
    sMapGet (studentJoin st sid ch nm sock now).1.students sid =
      some ⟨sid, displayNameOr ("Student " ++ sid) nm, sock, ch,
            none, none, none, now, none⟩ ∧
    (studentJoin st sid ch nm sock now).1.students.length = st.students.length ∧
    ∀ t ∈ st.students, t.id ≠ sid → t ∈ (studentJoin st sid ch nm sock now).1.students := by
  have hmem := List.mem_of_find?_eq_some hold
  have hpred := List.find?_some hold
  have hany : (st.students.any fun t => t.id == sid) = true :=
    List.any_eq_true.mpr ⟨old, hmem, hpred⟩
  have hentry :
      (studentJoin st sid ch nm sock now).1.students =
        sMapSet st.students
          ⟨sid, displayNameOr ("Student " ++ sid) nm, sock, ch,
           none, none, none, now, none⟩ := rfl
  refine ⟨?_, ?_, ?_⟩
  · rw [hentry]
    exact sMapGet_sMapSet_self ..
  · rw [hentry]
    exact sMapSet_length_of_present _ _ hany
  · intro t ht hne
    rw [hentry]
    exact sMapSet_preserves_others _ _ _ ht hne

/-- The amended C4 applied at the concrete reconnect of `exRejoinState`:
the entry is replaced and the count stays one. -/
theorem studentJoin_replaces_entry_wit :
    sMapGet (studentJoin exRejoinState "s1" "math" (some "Ana") 2 99).1.students
        "s1" =
      some ⟨"s1", displayNameOr ("Student " ++ "s1") (some "Ana"), 2, "math",
            none, none, none, 99, none⟩ ∧
    (studentJoin exRejoinState "s1" "math" (some "Ana") 2 99).1.students.length =
      exRejoinState.students.length :=
  ⟨(studentJoin_replaces_entry exRejoinState "s1" "math" (some "Ana") 2 99
      ⟨"s1", "Ana", 1, "math", some "happy", some "Engaged", some (9/10), 10, some 3⟩
      (by decide)).1,
   (studentJoin_replaces_entry exRejoinState "s1" "math" (some "Ana") 2 99
      ⟨"s1", "Ana", 1, "math", some "happy", some "Engaged", some (9/10), 10, some 3⟩
      (by decide)).2.1⟩

/-! ## C3: roster replay to a joining observer is one batch event -/

/-- Counterexample to claim C3: an observer joining `exThreeStudents`
(three students present in the channel) receives zero individual
participant-joined events for those students — not three — before anything
else; the only participant-joined event it receives is its own echo. -/
theorem teacherJoin_no_individual_replay_cex :
    (exThreeStudents.students.filter fun s => s.channelName == "math").length = 3 ∧
    ((deliveredTo 10 ["channel:math", "teachers:math"]
        (teacherJoin exThreeStudents "t1" "math" none 10 5000).2).filter
      isStudentJoined).length = 0 ∧
    ((deliveredTo 10 ["channel:math", "teachers:math"]
        (teacherJoin exThreeStudents "t1" "math" none 10 5000).2).filter
      isTeacherJoined).length = 1 := by
  refine ⟨by decide, by decide, by decide⟩

/-- Claim C3 (amended): an observer joining a channel receives, on its own
connection, exactly two events — its own join echo followed by a single
students-list batch containing precisely the channel's current students
(N entries for N students) — and no individual participant-joined replay
and no engagement-update precedes or accompanies them. -/
theorem teacherJoin_batch_roster (st : ServerState) (tid ch : String)
    (tname : Option String) (sock now : ℕ)
    (hsock : ∀ s ∈ st.students, s.socketId ≠ sock) :
    deliveredTo sock ["channel:" ++ ch, "teachers:" ++ ch]
        (teacherJoin st tid ch tname sock now).2 =
      [Event.teacherJoined tid (displayNameOr ("Teacher " ++ tid) tname) now,
       Event.studentsList (st.students.filter fun s => s.channelName == ch)] ∧
    ∀ p ∈ (teacherJoin st tid ch tname sock now).2,
      isStudentJoined p.2 = false ∧ isEmotionUpdate p.2 = false := by
  have hemit : (teacherJoin st tid ch tname sock now).2 =
      [(EmitTarget.channelRoom ch,
        Event.teacherJoined tid (displayNameOr ("Teacher " ++ tid) tname) now),
       (EmitTarget.socket sock,
        Event.studentsList (st.students.filter fun s => s.channelName == ch))]
      ++ ((st.students.filter fun s => s.channelName == ch).map fun s =>
           (EmitTarget.socket s.socketId,
            Event.teacherJoined tid (displayNameOr ("Teacher " ++ tid) tname) now)) := rfl
  constructor
  · rw [hemit]
    unfold deliveredTo
    rw [List.filter_append]
    have hmapped : (((st.students.filter fun s => s.channelName == ch).map fun s =>
        (EmitTarget.socket s.socketId,
         Event.teacherJoined tid (displayNameOr ("Teacher " ++ tid) tname) now)).filter
          fun e => targetsSocket sock ["channel:" ++ ch, "teachers:" ++ ch] e.1) = [] := by
      rw [List.filter_eq_nil_iff]
      intro p hp
      obtain ⟨s, hs, rfl⟩ := List.mem_map.mp hp
      have hmem : s ∈ st.students := (List.mem_filter.mp hs).1
      have hne := hsock s hmem
      simp [targetsSocket, hne]
    rw [hmapped]
    simp [targetsSocket]
  · intro p hp
    rw [hemit] at hp
    simp only [List.cons_append, List.nil_append, List.mem_cons,
      List.mem_append, List.mem_map] at hp
    rcases hp with rfl | hp
    · exact ⟨rfl, rfl⟩
    rcases hp with rfl | ⟨s, _, rfl⟩
    · exact ⟨rfl, rfl⟩
    · exact ⟨rfl, rfl⟩

/-- The amended C3 applied at a concrete one-student channel. -/
theorem teacherJoin_batch_roster_wit :
    deliveredTo 2 ["channel:" ++ "math", "teachers:" ++ "math"]
        (teacherJoin ⟨[⟨"s1", "Ana", 1, "math", none, none, none, 0, none⟩],
          [], [], [], []⟩ "t1" "math" none 2 7).2 =
      [Event.teacherJoined "t1" (displayNameOr ("Teacher " ++ "t1") none) 7,
       Event.studentsList
         (([⟨"s1", "Ana", 1, "math", none, none, none, 0, none⟩] :
            List StudentSession).filter fun s => s.channelName == "math")] :=
  (teacherJoin_batch_roster
    ⟨[⟨"s1", "Ana", 1, "math", none, none, none, 0, none⟩], [], [], [], []⟩
    "t1" "math" none 2 7 (by decide)).1

/-! ## C10: a successful frame for a departed student -/

/-- Claim C10: when the inference call succeeds for a student absent from
the session registry, the handler still appends the analytics record and
still emits engagement-result to the sender and engagement-update to the
channel's teachers room, with the fallback display name; the registry is
left exactly as it was (no roster entry is recreated), and the handler is a
total function (it does not throw). -/
theorem frameSend_ok_absent_student (st : ServerState) (sid ch : String)
    (sock : ℕ) (resp : MLResponse) (now : ℕ)
    (habs : sMapGet st.students sid = none) :
    (frameSend st sid ch sock (Except.ok resp) now).1.students = st.students ∧
    assocGet (frameSend st sid ch sock (Except.ok resp) now).1.analyticsData ch =
      some ((assocGet st.analyticsData ch).getD [] ++
        [⟨now, sid, "Student " ++ sid, mlEmotionKey resp,
          (observedDecision st sid resp now).engagement,
          (observedDecision st sid resp now).confidence,
          (observedHistory st sid resp now).length⟩]) ∧
    (frameSend st sid ch sock (Except.ok resp) now).2 =
      [(EmitTarget.socket sock,
        Event.emotionResult (mlEmotionKey resp)
          (observedDecision st sid resp now).engagement
          (observedDecision st sid resp now).confidence
          (observedHistory st sid resp now).length now),
       (EmitTarget.teachersRoom ch,
        Event.emotionUpdate sid ("Student " ++ sid) (mlEmotionKey resp)
          (observedDecision st sid resp now).engagement
          (observedDecision st sid resp now).confidence
          (observedHistory st sid resp now).length now)] := by
  refine ⟨?_, ?_, ?_⟩
  · show (match sMapGet st.students sid with
      | some s => sMapSet st.students
          ⟨s.id, s.name, s.socketId, s.channelName, some (mlEmotionKey resp),
           some (observedDecision st sid resp now).engagement,
           some (observedDecision st sid resp now).confidence, now,
           some (observedHistory st sid resp now).length⟩
      | none => st.students) = st.students
    rw [habs]
  · show assocGet (assocSet st.analyticsData ch
      ((assocGet st.analyticsData ch).getD [] ++
        [⟨now, sid,
          (match sMapGet st.students sid with
           | some s => s.name
           | none => "Student " ++ sid), mlEmotionKey resp,
          (observedDecision st sid resp now).engagement,
          (observedDecision st sid resp now).confidence,
          (observedHistory st sid resp now).length⟩])) ch = _
    rw [habs]
    exact assocGet_assocSet_self ..
  · show [(EmitTarget.socket sock,
        Event.emotionResult (mlEmotionKey resp)
          (observedDecision st sid resp now).engagement
          (observedDecision st sid resp now).confidence
          (observedHistory st sid resp now).length now),
       (EmitTarget.teachersRoom ch,
        Event.emotionUpdate sid
          (match sMapGet st.students sid with
           | some s => s.name
           | none => "Student " ++ sid) (mlEmotionKey resp)
          (observedDecision st sid resp now).engagement
          (observedDecision st sid resp now).confidence
          (observedHistory st sid resp now).length now)] = _
    rw [habs]

/-- Claim C10 applied to a frame for an unknown student on an empty
registry. -/
theorem frameSend_ok_absent_student_wit :
    (frameSend ⟨[], [], [], [], []⟩ "s1" "math" 5
      (Except.ok ⟨some "happy", some (1/2)⟩) 9).1.students = [] :=
  (frameSend_ok_absent_student ⟨[], [], [], [], []⟩ "s1" "math" 5
    ⟨some "happy", some (1/2)⟩ 9 rfl).1

/-! ## Scorer accumulation lemmas -/

theorem insertByTs_perm (f : Frame) (l : List Frame) :
    List.Perm (insertByTs f l) (f :: l) := by
  induction l with
  | nil => exact List.Perm.refl _
  | cons g rest ih =>
    unfold insertByTs
    split
    · exact List.Perm.refl _
    · exact (ih.cons g).trans (List.Perm.swap f g rest)

theorem sortByTs_perm (l : List Frame) : List.Perm (sortByTs l) l := by
  induction l with
  | nil => exact List.Perm.refl _
  | cons f rest ih => exact (insertByTs_perm f (sortByTs rest)).trans (ih.cons f)

theorem mem_recentFrames_conf (h : List Frame) (now : ℕ) (f : Frame)
    (hf : f ∈ recentFrames h now) : CONFIDENCE_THRESHOLD ≤ f.confidence := by
  unfold recentFrames at hf
  have hp := (List.mem_filter.mp hf).2
  simp only [Bool.and_eq_true, decide_eq_true_eq] at hp
  exact hp.2

theorem totalWeight_pos (l : List Frame) (now : ℕ) (hne : l ≠ [])
    (hconf : ∀ f ∈ l, CONFIDENCE_THRESHOLD ≤ f.confidence) :
    0 < totalWeight l now := by
  induction l with
  | nil => exact absurd rfl hne
  | cons f rest ih =>
    simp only [totalWeight, List.map_cons, List.sum_cons]
    have hf : 0 < frameWeight now f := frameWeight_pos now f (hconf f (by simp))
    have hrest : 0 ≤ (rest.map (frameWeight now)).sum := by
      apply List.sum_nonneg
      intro x hx
      obtain ⟨g, hg, rfl⟩ := List.mem_map.mp hx
      exact le_of_lt (frameWeight_pos now g (hconf g (by simp [hg])))
    linarith

theorem stateContribution_sum (f : Frame) (now : ℕ) :
    stateContribution f now .engaged + stateContribution f now .bored +
      stateContribution f now .confused + stateContribution f now .notPaying =
    frameWeight now f := by
  unfold stateContribution
  rw [← add_mul, ← add_mul, ← add_mul]
  have hsum : ((weightsFor (emotionKeyOf f)).get EngKey.engaged : ℝ) +
      (weightsFor (emotionKeyOf f)).get EngKey.bored +
      (weightsFor (emotionKeyOf f)).get EngKey.confused +
      (weightsFor (emotionKeyOf f)).get EngKey.notPaying = 1 := by
    exact_mod_cast weightsFor_sum_one (emotionKeyOf f)
  rw [hsum, one_mul]

theorem accScore_sum_eq_totalWeight (l : List Frame) (now : ℕ) :
    accScore l now .engaged + accScore l now .bored + accScore l now .confused +
      accScore l now .notPaying = totalWeight l now := by
  induction l with
  | nil => simp [accScore, totalWeight]
  | cons f rest ih =>
    simp only [accScore, totalWeight, List.map_cons, List.sum_cons] at *
    have := stateContribution_sum f now
    linarith

/-! ## C1: normalised scores sum to one -/

/-- Counterexample to claim C1: a history of one single fresh
high-confidence sample.  The sample survives both the window and the
confidence filter and its accumulated weight is positive, yet the
calculation returns through the minimum-frame guard with four zero scores,
whose sum is not 1. -/
theorem scores_sum_one_cex :
    0 < totalWeight (recentFrames exSingleHistory 1000) 1000 ∧
    recentFrames exSingleHistory 1000 ≠ [] ∧
    scoreSum (calculateEngagementFromHistory exSingleHistory 1000).scores ≠ 1 := by
  have hrec : recentFrames exSingleHistory 1000 = exSingleHistory := by decide
  refine ⟨?_, by decide, ?_⟩
  · rw [hrec]
    unfold exSingleHistory totalWeight
    simp only [List.map_cons, List.map_nil, List.sum_cons, List.sum_nil, add_zero]
    exact frameWeight_pos 1000 _ (by decide)
  · unfold calculateEngagementFromHistory
    rw [if_pos (by decide)]
    unfold scoreSum
    norm_num

/-- Claim C1 (amended): for a history that passes the minimum-frame guard
(at least MIN_FRAMES_FOR_DECISION samples) and in which at least one sample
survives both the window and the confidence filter, the four returned
normalised scores sum exactly to 1; and whenever no sample of the history
reaches the confidence threshold, all four returned scores are 0. -/
theorem scores_sum_one (h : List Frame) (now : ℕ) :
    (MIN_FRAMES_FOR_DECISION ≤ h.length → recentFrames h now ≠ [] →
      scoreSum (calculateEngagementFromHistory h now).scores = 1) ∧
    ((∀ f ∈ h, f.confidence < CONFIDENCE_THRESHOLD) →
      (calculateEngagementFromHistory h now).scores = ⟨0, 0, 0, 0⟩) := by
  constructor
  · intro hlen hne
    have h1 : ¬ h.length < MIN_FRAMES_FOR_DECISION := by omega
    have h2 : ¬ (recentFrames h now).length = 0 := by
      simpa [List.length_eq_zero] using hne
    unfold calculateEngagementFromHistory
    rw [if_neg h1, if_neg h2]
    show scoreSum (normalizedScores (sortByTs (recentFrames h now)) now) = 1
    have hperm := sortByTs_perm (recentFrames h now)
    have hsne : sortByTs (recentFrames h now) ≠ [] := by
      intro hnil
      apply hne
      have hlen0 := hperm.length_eq
      rw [hnil] at hlen0
      exact List.length_eq_zero.mp hlen0.symm
    have hconf : ∀ f ∈ sortByTs (recentFrames h now),
        CONFIDENCE_THRESHOLD ≤ f.confidence := fun f hf =>
      mem_recentFrames_conf h now f (hperm.subset hf)
    have htw : 0 < totalWeight (sortByTs (recentFrames h now)) now :=
      totalWeight_pos _ now hsne hconf
    unfold normalizedScores
    rw [if_pos htw]
    unfold scoreSum
    rw [div_add_div_same, div_add_div_same, div_add_div_same,
      accScore_sum_eq_totalWeight]
    exact div_self (ne_of_gt htw)
  · intro hconf
    unfold calculateEngagementFromHistory
    by_cases h1 : h.length < MIN_FRAMES_FOR_DECISION
    · rw [if_pos h1]
    · rw [if_neg h1]
      have hrec : recentFrames h now = [] := by
        unfold recentFrames
        rw [List.filter_eq_nil_iff]
        intro f hf
        simp only [Bool.and_eq_true, decide_eq_true_eq, not_and]
        intro _
        exact not_le_of_lt (hconf f hf)
      rw [hrec]
      rfl

/-- The amended C1 applied at concrete inputs: the tie history sums to 1,
a single stale low-confidence history returns all-zero scores. -/
theorem scores_sum_one_wit :
    scoreSum (calculateEngagementFromHistory exTieHistory 1000).scores = 1 ∧
    (calculateEngagementFromHistory [⟨"happy", 1/10, 500⟩] 1000).scores =
      ⟨0, 0, 0, 0⟩ :=
  ⟨(scores_sum_one exTieHistory 1000).1 (by decide) (by decide),
   (scores_sum_one [⟨"happy", 1/10, 500⟩] 1000).2 (by decide)⟩

/-! ## C6: dominant state selection and tie direction -/

theorem chooseState_spec (s : Scores) :
    (∀ k : EngKey, s.get k ≤ s.get (chooseState s)) ∧
    (∀ k : EngKey, keyIdx (chooseState s) < keyIdx k →
      s.get k < s.get (chooseState s)) := by
  unfold chooseState
  simp only [List.foldl_cons, List.foldl_nil]
  split_ifs <;>
    refine ⟨fun k => ?_, fun k hk => ?_⟩ <;>
    cases k <;>
    simp_all [Scores.get, keyIdx] <;>
    linarith

theorem chooseState_attains_max (s : Scores) :
    s.get (chooseState s) = maxOfScores s := by
  have hspec := (chooseState_spec s).1
  apply le_antisymm
  · have hup : ∀ k : EngKey, s.get k ≤ maxOfScores s := by
      intro k
      cases k
      · exact le_max_of_le_left (le_max_left _ _)
      · exact le_max_of_le_left (le_max_right _ _)
      · exact le_max_of_le_right (le_max_left _ _)
      · exact le_max_of_le_right (le_max_right _ _)
    exact hup _
  · exact max_le (max_le (hspec .engaged) (hspec .bored))
      (max_le (hspec .confused) (hspec .notPaying))

/-- Evaluation of the tie history: the decay of two zero-age frames is 1,
so the normalised scores are exact rationals with engaged and bored tied at
the top. -/
theorem exTie_scores :
    normalizedScores (sortByTs (recentFrames exTieHistory 1000)) 1000 =
      ⟨19/44, 19/44, 19/660, 71/660⟩ := by
  have hrec : recentFrames exTieHistory 1000 = exTieHistory := by decide
  have hsort : sortByTs exTieHistory = exTieHistory := by decide
  rw [hrec, hsort]
  have hdec : timeDecay 0 = 1 := by simp [timeDecay]
  have hfw1 : frameWeight 1000 ⟨"happy", 56/100, 1000⟩ = 56/100 := by
    unfold frameWeight
    rw [show effConfidence ⟨"happy", 56/100, 1000⟩ = 56/100 from by decide,
      show (1000:ℕ) - 1000 = 0 from rfl, hdec]
    norm_num
  have hfw2 : frameWeight 1000 ⟨"disgusted", 76/100, 1000⟩ = 76/100 := by
    unfold frameWeight
    rw [show effConfidence ⟨"disgusted", 76/100, 1000⟩ = 76/100 from by decide,
      show (1000:ℕ) - 1000 = 0 from rfl, hdec]
    norm_num
  have htw : totalWeight exTieHistory 1000 = 132/100 := by
    unfold totalWeight exTieHistory
    rw [List.map_cons, List.map_cons, List.map_nil, List.sum_cons,
      List.sum_cons, List.sum_nil, hfw1, hfw2]
    norm_num
  have hc1 : ∀ k, stateContribution ⟨"happy", 56/100, 1000⟩ 1000 k =
      ((⟨95/100, 0, 0, 5/100⟩ : WeightVec).get k : ℝ) * (56/100) := by
    intro k
    unfold stateContribution
    rw [show weightsFor (emotionKeyOf ⟨"happy", 56/100, 1000⟩) =
      ⟨95/100, 0, 0, 5/100⟩ from by decide, hfw1]
  have hc2 : ∀ k, stateContribution ⟨"disgusted", 76/100, 1000⟩ 1000 k =
      ((⟨5/100, 75/100, 5/100, 15/100⟩ : WeightVec).get k : ℝ) * (76/100) := by
    intro k
    unfold stateContribution
    rw [show weightsFor (emotionKeyOf ⟨"disgusted", 76/100, 1000⟩) =
      ⟨5/100, 75/100, 5/100, 15/100⟩ from by decide, hfw2]
  have hacc : ∀ k, accScore exTieHistory 1000 k =
      ((⟨95/100, 0, 0, 5/100⟩ : WeightVec).get k : ℝ) * (56/100) +
      ((⟨5/100, 75/100, 5/100, 15/100⟩ : WeightVec).get k : ℝ) * (76/100) := by
    intro k
    unfold accScore exTieHistory
    rw [List.map_cons, List.map_cons, List.map_nil, List.sum_cons,
      List.sum_cons, List.sum_nil, hc1, hc2, add_zero]
  unfold normalizedScores
  rw [htw, if_pos (by norm_num), hacc, hacc, hacc, hacc]
  simp only [WeightVec.get]
  norm_num [Scores.mk.injEq]

theorem exTie_max : maxOfScores ⟨19/44, 19/44, 19/660, 71/660⟩ = 19/44 := by
  unfold maxOfScores
  rw [max_self, max_eq_right (by norm_num : (19/660:ℝ) ≤ 71/660),
    max_eq_left (by norm_num : (71/660:ℝ) ≤ 19/44)]

theorem exTie_choose : chooseState ⟨19/44, 19/44, 19/660, 71/660⟩ = .bored := by
  unfold chooseState
  simp only [List.foldl_cons, List.foldl_nil, Scores.get]
  norm_num

/-- Full evaluation of the engagement calculation on the tie history. -/
theorem exTie_calc :
    calculateEngagementFromHistory exTieHistory 1000 =
      ⟨"Bored", 33/50, 2, ⟨19/44, 19/44, 19/660, 71/660⟩⟩ := by
  unfold calculateEngagementFromHistory
  rw [if_neg (by decide), if_neg (by decide), exTie_scores,
    show avgConfidence (sortByTs (recentFrames exTieHistory 1000)) = 33/50
      from by decide,
    show (recentFrames exTieHistory 1000).length = 2 from by decide]
  unfold decisionLabel
  rw [exTie_max, if_pos (by norm_num), exTie_choose]
  rfl

/-- Counterexample to claim C6: on the tie history the total weight is
positive, engaged ties for the maximal normalised score (and is the FIRST
such state in the enumeration order), the maximum clears the dominance
threshold, yet the decision is Bored, not Engaged — the reduce keeps the
accumulator only on strictly greater scores, so a tie moves to the LATER
state. -/
theorem decision_tie_last_wins_cex :
    0 < totalWeight (sortByTs (recentFrames exTieHistory 1000)) 1000 ∧
    (calculateEngagementFromHistory exTieHistory 1000).scores.get .engaged =
      maxOfScores (calculateEngagementFromHistory exTieHistory 1000).scores ∧
    (3/10 : ℝ) ≤ maxOfScores (calculateEngagementFromHistory exTieHistory 1000).scores ∧
    (calculateEngagementFromHistory exTieHistory 1000).engagement ≠ "Engaged" ∧
    (calculateEngagementFromHistory exTieHistory 1000).engagement = "Bored" := by
  refine ⟨?_, ?_, ?_, ?_, ?_⟩
  · rw [show sortByTs (recentFrames exTieHistory 1000) = exTieHistory from by decide]
    have h1 : 0 < frameWeight 1000 ⟨"happy", 56/100, 1000⟩ :=
      frameWeight_pos _ _ (by decide)
    have h2 : 0 < frameWeight 1000 ⟨"disgusted", 76/100, 1000⟩ :=
      frameWeight_pos _ _ (by decide)
    unfold totalWeight exTieHistory
    rw [List.map_cons, List.map_cons, List.map_nil, List.sum_cons,
      List.sum_cons, List.sum_nil]
    linarith
  · rw [exTie_calc]
    show (19/44 : ℝ) = maxOfScores ⟨19/44, 19/44, 19/660, 71/660⟩
    rw [exTie_max]
  · rw [exTie_calc]
    show (3/10 : ℝ) ≤ maxOfScores ⟨19/44, 19/44, 19/660, 71/660⟩
    rw [exTie_max]
    norm_num
  · rw [exTie_calc]
    simp
  · rw [exTie_calc]

/-- Claim C6 (amended): for every history the returned decision is the
display name of a state attaining the maximal returned score whenever that
maximum reaches the dominance threshold 0.3 — and among tied maximal states
it is the LAST one in the order Engaged, Bored, Confused, NotPaying (every
other maximiser has a smaller or equal index) — while a maximum below the
threshold yields Not Paying Attention. -/
theorem decision_is_last_argmax (h : List Frame) (now : ℕ) :
    ((3/10 : ℝ) ≤ maxOfScores (calculateEngagementFromHistory h now).scores →
      ∃ k : EngKey,
        (calculateEngagementFromHistory h now).engagement = displayName k ∧
        (calculateEngagementFromHistory h now).scores.get k =
          maxOfScores (calculateEngagementFromHistory h now).scores ∧
        ∀ j : EngKey,
          (calculateEngagementFromHistory h now).scores.get j =
            maxOfScores (calculateEngagementFromHistory h now).scores →
          keyIdx j ≤ keyIdx k) ∧
    (maxOfScores (calculateEngagementFromHistory h now).scores < 3/10 →
      (calculateEngagementFromHistory h now).engagement = "Not Paying Attention") := by
  unfold calculateEngagementFromHistory
  split_ifs with hb1 hb2
  · constructor
    · intro hmax
      exfalso
      simp only [maxOfScores, max_self] at hmax
      norm_num at hmax
    · intro _
      rfl
  · constructor
    · intro hmax
      exfalso
      simp only [maxOfScores, max_self] at hmax
      norm_num at hmax
    · intro _
      rfl
  · constructor
    · intro hmax
      refine ⟨chooseState (normalizedScores (sortByTs (recentFrames h now)) now),
        ?_, ?_, ?_⟩
      · show decisionLabel (normalizedScores (sortByTs (recentFrames h now)) now) = _
        unfold decisionLabel
        rw [if_pos hmax]
      · exact chooseState_attains_max _
      · intro j hj
        by_contra hlt
        push_neg at hlt
        have hstrict := (chooseState_spec
          (normalizedScores (sortByTs (recentFrames h now)) now)).2 j hlt
        rw [hj, ← chooseState_attains_max] at hstrict
        exact lt_irrefl _ hstrict
    · intro hmax
      show decisionLabel (normalizedScores (sortByTs (recentFrames h now)) now) = _
      unfold decisionLabel
      rw [if_neg (not_le_of_lt hmax)]

/-- The amended C6 applied at concrete inputs: the tie history resolves to
the last tied state, the empty history falls below the threshold. -/
theorem decision_is_last_argmax_wit :
    (∃ k : EngKey,
      (calculateEngagementFromHistory exTieHistory 1000).engagement = displayName k ∧
      (calculateEngagementFromHistory exTieHistory 1000).scores.get k =
        maxOfScores (calculateEngagementFromHistory exTieHistory 1000).scores ∧
      ∀ j : EngKey,
        (calculateEngagementFromHistory exTieHistory 1000).scores.get j =
          maxOfScores (calculateEngagementFromHistory exTieHistory 1000).scores →
        keyIdx j ≤ keyIdx k) ∧
    (calculateEngagementFromHistory [] 1000).engagement = "Not Paying Attention" :=
  ⟨(decision_is_last_argmax exTieHistory 1000).1
    (by rw [exTie_calc]
        show (3/10 : ℝ) ≤ maxOfScores ⟨19/44, 19/44, 19/660, 71/660⟩
        rw [exTie_max]
        norm_num),
   (decision_is_last_argmax [] 1000).2
    (by rw [show calculateEngagementFromHistory [] 1000 =
          ⟨"Not Paying Attention", 1/2, 0, ⟨0, 0, 0, 0⟩⟩ from by
            unfold calculateEngagementFromHistory
            rw [if_pos (by decide)]
            rfl]
        show maxOfScores ⟨0, 0, 0, 0⟩ < 3/10
        simp only [maxOfScores, max_self]
        norm_num)⟩

/-! ## C2: the report never omits a student from a topic's statistics -/

theorem mem_dedupAux (l : List String) : ∀ (seen : List String) (x : String),
    x ∈ dedupAux seen l ↔ x ∈ l ∧ x ∉ seen := by
  induction l with
  | nil => intro seen x; simp [dedupAux]
  | cons a rest ih =>
    intro seen x
    unfold dedupAux
    by_cases ha : a ∈ seen
    · rw [if_pos ha, ih]
      constructor
      · rintro ⟨hx, hns⟩
        exact ⟨List.mem_cons_of_mem _ hx, hns⟩
      · rintro ⟨hx, hns⟩
        rcases List.mem_cons.mp hx with rfl | hx
        · exact absurd ha hns
        · exact ⟨hx, hns⟩
    · rw [if_neg ha]
      constructor
      · intro hx
        rcases List.mem_cons.mp hx with rfl | hx
        · exact ⟨List.mem_cons_self .., ha⟩
        · have hr := (ih (a :: seen) x).mp hx
          exact ⟨List.mem_cons_of_mem _ hr.1,
            fun hs => hr.2 (List.mem_cons_of_mem _ hs)⟩
      · rintro ⟨hx, hns⟩
        rcases List.mem_cons.mp hx with rfl | hx
        · exact List.mem_cons_self ..
        · by_cases hxa : x = a
          · subst hxa
            exact List.mem_cons_self ..
          · refine List.mem_cons_of_mem _ ((ih (a :: seen) x).mpr ⟨hx, ?_⟩)
            simp [hxa, hns]

theorem mem_uniqueStudents (analytics : List EngagementRecord) (sid : String) :
    sid ∈ uniqueStudents analytics ↔ ∃ r ∈ analytics, r.studentId = sid := by
  unfold uniqueStudents
  rw [mem_dedupAux]
  simp [List.mem_map, eq_comm]

/-- Counterexample to claim C2: in `exReportAnalytics` the student s1 has
no record inside the topic's range (its only record precedes the start),
yet the per-topic statistics still contain an entry for s1 — with zero
data points and zero engaged percentage — and that entry halves the class
average from 100 to 50 instead of being omitted. -/
theorem report_includes_zero_record_student_cex :
    (exReportAnalytics.filter fun r =>
      r.studentId == "s1" && inTopicRange exReportTopic r) = [] ∧
    ((mkTopicStat exReportAnalytics exReportTopic).studentStats.map
      fun s => s.studentId) = ["s1", "s2"] ∧
    ((mkTopicStat exReportAnalytics exReportTopic).studentStats.map
      fun s => s.totalDataPoints) = [0, 1] ∧
    (mkTopicStat exReportAnalytics exReportTopic).classAverageEngagement = 50 := by
  refine ⟨by decide, by decide, by decide, by decide⟩

/-- Claim C2 (amended): every student with at least one record anywhere in
the channel's timeline has an entry in EVERY topic's per-student statistics
(zero-record-in-range students are included, with zero counts, and weigh
into that topic's class average), and likewise an entry in the
whole-channel overall statistics. -/
theorem report_never_omits_students (analytics : List EngagementRecord)
    (topic : Topic) (sid : String) (hsid : ∃ r ∈ analytics, r.studentId = sid) :
    sid ∈ (mkTopicStat analytics topic).studentStats.map (fun s => s.studentId) ∧
    sid ∈ (overallStatsFor analytics).map (fun s => s.studentId) := by
  have hmem : sid ∈ uniqueStudents analytics :=
    (mem_uniqueStudents analytics sid).mpr hsid
  constructor
  · show sid ∈ ((uniqueStudents analytics).map
      (mkStudentStat analytics (analytics.filter (inTopicRange topic)))).map
        (fun s => s.studentId)
    rw [List.map_map]
    exact List.mem_map.mpr ⟨sid, hmem, rfl⟩
  · unfold overallStatsFor
    rw [List.map_map]
    exact List.mem_map.mpr ⟨sid, hmem, rfl⟩

/-- The amended C2 applied to the concrete two-student channel: s1 appears
in the topic's statistics although it has no record in range. -/
theorem report_never_omits_students_wit :
    "s1" ∈ (mkTopicStat exReportAnalytics exReportTopic).studentStats.map
      (fun s => s.studentId) ∧
    "s1" ∈ (overallStatsFor exReportAnalytics).map (fun s => s.studentId) :=
  report_never_omits_students exReportAnalytics exReportTopic "s1" (by decide)

end Engage
